import Mathlib

set_option linter.unusedVariables false

/-!
Shallow embedding of `05a-apply_ica.py` from the mne-bids-pipeline
(mne-study-template) repository.

The script sequences calls into the external `mne` / `mne_bids` libraries.
The embedding keeps the script's own control flow, path construction and
data flow exact, and models the external library calls abstractly through a
`Lib` structure of uninterpreted (but computable) functions, a `RawData`
record of channel-picker results, and a free `Epochs` value that records
which ICA applications were performed on the epoch data.

Every run of the embedded script returns the list of observable events
(file reads, ICA loads, detection calls with the threshold passed, figure
additions, exclusion applications, file writes) in the order the Python
code performs them, together with either the final epochs value or the
first uncaught exception, as an `Except`.

`os.path.join(a, b)` is modelled as `a ++ "/" ++ b`: every second argument
the script joins is a relative filename.
-/

namespace ApplyIca

/-- The epoch data, modelled freely: either the epochs as loaded from disk, or
the result of `ica.apply(epochs, exclude=...)` (line 216 of the script) on a
previous value.  The constructor records which ICA file and which exclusion
list were applied, which is all the script itself determines. -/
inductive Epochs where
  | loaded (path : String)
  | icaApplied (prev : Epochs) (icaPath : String) (exclude : List Nat)
  deriving DecidableEq

/-- The `reject` dictionary built at lines 114-118: for channel type `meg` it
holds the `mag` and `grad` entries of `config.reject`, for `eeg` the `eeg`
entry. -/
inductive RejectSpec where
  | megReject (mag grad : ℚ)
  | eegReject (eeg : ℚ)
  deriving DecidableEq

/-- Observable events of a run of `apply_ica`, in program order. -/
inductive Event where
  | readEpochs (path : String)
  | readRaw (path : String)
  | loadIca (path : String)
  | detectEcg (threshold : ℚ)
  | detectEog (threshold : ℚ)
  | addFigs (caption : String)
  | saveReport (path : String)
  | applyExclude (icaPath : String) (exclude : List Nat)
  | saveEpochs (path : String) (data : Epochs)
  | plotImage
  deriving DecidableEq

/-- The configuration module `config` as used by the script: exactly the
attributes and accessor results the script reads. -/
structure Config where
  chTypes : List String                      -- config.ch_types
  useMaxwellFilter : Bool                    -- config.use_maxwell_filter
  useIca : Bool                              -- config.use_ica
  plot : Bool                                -- config.plot
  kind : String                              -- config.get_kind()
  task : Option String                       -- config.get_task()
  acq : Option String                        -- config.acq
  proc : Option String                       -- config.proc
  recording : Option String                  -- config.rec
  space : Option String                      -- config.space
  subjects : List String                     -- config.get_subjects()
  runs : List String                         -- config.get_runs()
  sessions : List (Option String)            -- config.get_sessions()
  icaCtpsEcgThreshold : ℚ                    -- config.ica_ctps_ecg_threshold
  rejectMag : ℚ                              -- config.reject['mag']
  rejectGrad : ℚ                             -- config.reject['grad']
  rejectEeg : ℚ                              -- config.reject['eeg']
  rejcompsMan : String → String → List Nat   -- config.rejcomps_man[subject][ch_type]

/-- The channel pickers computed from `raw.info` by `mne.pick_types`
(lines 85-88, 103-104, 166-167): lists of channel indices. -/
structure RawData where
  pickMeg : List Nat
  pickEeg : List Nat
  pickEcg : List Nat
  pickEog : List Nat
  deriving DecidableEq

/-- The external library surface the script calls, left abstract: any
behaviour of `mne` / `mne_bids` is a `Lib` value.  `findBadsEcg` and
`findBadsEog` receive the context the script builds for them, including the
threshold argument the script passes. -/
structure Lib where
  makeBidsBasename : String → Option String → Option String → Option String →
      Option String → Option String → Option String → Option String → String
  getSubjectDerivPath : String → Option String → String → String
  findBadsEcg : String → List Nat → RejectSpec → ℚ → List Nat
  findBadsEog : String → List Nat → ℚ → List Nat

/-- Python `str.upper()` on ASCII strings such as `ch_type.upper()`
(lines 141, 148, ...), as a structurally computable map over the characters. -/
def pyUpper (s : String) : String :=
  ⟨s.data.map Char.toUpper⟩

/-- Truthiness of a numpy integer array, as used at line 109
(`if pick_ecg or ...`): an empty array is falsy, a one-element array has the
truthiness of its element, and a longer array raises `ValueError`. -/
def numpyTruthy : List Nat → Except String Bool
  | [] => Except.ok false
  | [x] => Except.ok (decide (x ≠ 0))
  | _ :: _ :: _ =>
      Except.error "ValueError: The truth value of an array with more than one element is ambiguous"

/-- `pick_eog.any()` at line 169: true when some element is nonzero. -/
def numpyAny (l : List Nat) : Bool :=
  l.any fun x => decide (x ≠ 0)

/-- `make_bids_basename` as called by the script: all entities other than the
run come from the configuration (lines 41-48 and 66-74). -/
def mkBasename (cfg : Config) (lib : Lib) (subject : String)
    (session : Option String) (run : Option String) : String :=
  lib.makeBidsBasename subject session cfg.task cfg.acq run cfg.proc cfg.recording cfg.space

/-- Line 96 of the script: the ICA filename.  The f-string
`f'bids_basename_{ch_type}-ica.fif'` interpolates only `ch_type`; the text
`bids_basename` is literal. -/
def fnameIcaFor (derivPath chType : String) : String :=
  derivPath ++ "/" ++ ("bids_basename_" ++ chType ++ "-ica.fif")

/-- Lines 131-133: the report filename, built from the second (run-bearing)
`bids_basename`. -/
def reportFnameFor (derivPath bidsBasenameRun chType : String) : String :=
  derivPath ++ "/" ++ (bidsBasenameRun ++ "_" ++ chType ++ "-reject_ica.html")

/-- The ICA filename convention the specification describes: the BIDS
basename of the subject and session, followed by a channel-type specific
`-ica.fif` suffix, inside the derivatives path. -/
def specIcaFname (derivPath bidsBasename chType : String) : String :=
  derivPath ++ "/" ++ (bidsBasename ++ "_" ++ chType ++ "-ica.fif")

/-- Lines 114-118: the `reject` dictionary for `create_ecg_epochs`. -/
def rejectFor (cfg : Config) (chType : String) : RejectSpec :=
  if chType = "meg" then RejectSpec.megReject cfg.rejectMag cfg.rejectGrad
  else RejectSpec.eegReject cfg.rejectEeg

/-- Line 93: `all_picks[ch_type]`, defined for the keys `meg` and `eeg`. -/
def picksFor (raw : RawData) (chType : String) : List Nat :=
  if chType = "meg" then raw.pickMeg else raw.pickEeg

/-- The events of the taken ECG branch: the detection call with the
configured threshold, then the three diagnostic figures (lines 126-156). -/
def ecgEvsFor (cfg : Config) (chType : String) : List Event :=
  [Event.detectEcg cfg.icaCtpsEcgThreshold,
   Event.addFigs (pyUpper chType ++ " - ECG - " ++ "R scores"),
   Event.addFigs (pyUpper chType ++ " - ECG - " ++ "Sources time course"),
   Event.addFigs (pyUpper chType ++ " - ECG - " ++ "Corrections")]

/-- The events of the taken EOG branch when a report exists: the detection
call with the literal threshold `3.0`, the three diagnostic figures, and the
report save (lines 181-201). -/
def eogEvsFor (chType rf : String) : List Event :=
  [Event.detectEog 3,
   Event.addFigs (pyUpper chType ++ " - EOG - " ++ "R scores"),
   Event.addFigs (pyUpper chType ++ " - EOG - " ++ "Sources time course"),
   Event.addFigs (pyUpper chType ++ " - EOG - " ++ "Corrections"),
   Event.saveReport rf]

/-- The optional trailing plot event (lines 228-230). -/
def plotTail (cfg : Config) : List Event :=
  if cfg.plot then [Event.plotImage] else []

/-- Lines 103-163: the ECG block of one channel-type iteration.  Returns the
events it emits, and on success the detected ECG component indices together
with the report filename when a `Report` object was created (`report` is
`None` otherwise, line 92). -/
def ecgPhase (cfg : Config) (lib : Lib) (raw : RawData)
    (derivPath bidsBasenameRun fnameIca chType : String) (picks : List Nat) :
    List Event × Except String (List Nat × Option String) :=
  match numpyTruthy raw.pickEcg with
  | Except.error e => ([], Except.error e)
  | Except.ok ecgTruthy =>
    if ecgTruthy || chType = "meg" then
      let ecgInds := lib.findBadsEcg fnameIca (picks ++ raw.pickEcg) (rejectFor cfg chType)
                       cfg.icaCtpsEcgThreshold
      let reportFname := reportFnameFor derivPath bidsBasenameRun chType
      (ecgEvsFor cfg chType, Except.ok (ecgInds, some reportFname))
    else
      ([], Except.ok ([], none))

/-- Lines 165-207: the EOG block of one channel-type iteration.  When an EOG
channel is registered by `pick_eog.any()`, the components are detected with
the literal threshold `3.0` (line 181) and the diagnostic figures are added
to `report`; when `report` is `None` this attribute access raises. -/
def eogPhase (lib : Lib) (raw : RawData) (fnameIca chType : String)
    (picks : List Nat) (report : Option String) :
    List Event × Except String (List Nat) :=
  if numpyAny raw.pickEog then
    let eogInds := lib.findBadsEog fnameIca (picks ++ raw.pickEog) 3
    match report with
    | none =>
        ([Event.detectEog 3],
         Except.error "AttributeError: NoneType object has no attribute add_figs_to_section")
    | some rf =>
        (eogEvsFor chType rf, Except.ok eogInds)
  else
    ([], Except.ok [])

/-- Lines 91-230: the body of one iteration of `for ch_type in
config.ch_types`.  `all_picks[ch_type]` raises `KeyError` for a channel type
other than `meg` or `eeg` (line 89/93). -/
def processChType (cfg : Config) (lib : Lib) (raw : RawData) (subject : String)
    (derivPath bidsBasenameRun fnameOut : String) (epochs : Epochs)
    (chType : String) : List Event × Except String Epochs :=
  if chType = "meg" ∨ chType = "eeg" then
    let picks := picksFor raw chType
    let fnameIca := fnameIcaFor derivPath chType
    match ecgPhase cfg lib raw derivPath bidsBasenameRun fnameIca chType picks with
    | (evs1, Except.error e) => (Event.loadIca fnameIca :: evs1, Except.error e)
    | (evs1, Except.ok (ecgInds, report)) =>
      match eogPhase lib raw fnameIca chType picks report with
      | (evs2, Except.error e) =>
          (Event.loadIca fnameIca :: (evs1 ++ evs2), Except.error e)
      | (evs2, Except.ok eogInds) =>
        let icaReject := ecgInds ++ eogInds ++ cfg.rejcompsMan subject chType
        let cleaned := Epochs.icaApplied epochs fnameIca icaReject
        let tailEvs :=
          [Event.applyExclude fnameIca icaReject, Event.saveEpochs fnameOut cleaned]
          ++ (match report with
              | some _ => [Event.addFigs (pyUpper chType ++ " - ALL(epochs) - Corrections")]
              | none => [])
          ++ plotTail cfg
        (Event.loadIca fnameIca :: (evs1 ++ evs2 ++ tailEvs), Except.ok cleaned)
  else
    ([], Except.error "KeyError")

/-- The whole `for ch_type in config.ch_types` loop, threading the `epochs`
variable (reassigned at line 216) through the iterations. -/
def processAll (cfg : Config) (lib : Lib) (raw : RawData) (subject : String)
    (derivPath bidsBasenameRun fnameOut : String) :
    Epochs → List String → List Event × Except String Epochs
  | epochs, [] => ([], Except.ok epochs)
  | epochs, ct :: rest =>
    match processChType cfg lib raw subject derivPath bidsBasenameRun fnameOut epochs ct with
    | (evs, Except.error e) => (evs, Except.error e)
    | (evs, Except.ok cleaned) =>
      let next := processAll cfg lib raw subject derivPath bidsBasenameRun fnameOut cleaned rest
      (evs ++ next.1, next.2)

/-- The derivatives path, line 37-39. -/
def derivPathOf (cfg : Config) (lib : Lib) (subject : String)
    (session : Option String) : String :=
  lib.getSubjectDerivPath subject session cfg.kind

/-- The input epoch filename, line 50 (run-less basename). -/
def fnameInOf (cfg : Config) (lib : Lib) (subject : String)
    (session : Option String) : String :=
  derivPathOf cfg lib subject session ++ "/" ++
    (mkBasename cfg lib subject session none ++ "-epo.fif")

/-- The output (cleaned) epoch filename, line 52. -/
def fnameOutOf (cfg : Config) (lib : Lib) (subject : String)
    (session : Option String) : String :=
  derivPathOf cfg lib subject session ++ "/" ++
    (mkBasename cfg lib subject session none ++ "_cleaned-epo.fif")

/-- The raw input filename, lines 76-80, built from the basename that carries
the first configured run (line 70); `none` when `config.get_runs()` is empty,
in which case line 70 raises `IndexError` before the filename is formed. -/
def rawFnameInOf (cfg : Config) (lib : Lib) (subject : String)
    (session : Option String) : Option String :=
  cfg.runs.head?.map fun r0 =>
    derivPathOf cfg lib subject session ++ "/" ++
      (if cfg.useMaxwellFilter then
        mkBasename cfg lib subject session (some r0) ++ "_sss_raw.fif"
       else
        mkBasename cfg lib subject session (some r0) ++ "_filt_raw.fif")

/-- The report filenames a run may write: one per configured channel type,
empty when `config.get_runs()` is empty (the run raises before the loop). -/
def reportNamesOf (cfg : Config) (lib : Lib) (subject : String)
    (session : Option String) : List String :=
  match cfg.runs.head? with
  | none => []
  | some r0 =>
    cfg.chTypes.map fun ct =>
      reportFnameFor (derivPathOf cfg lib subject session)
        (mkBasename cfg lib subject session (some r0)) ct

/-- The undecorated `apply_ica(subject, run, session)` function, lines 36-230.
`raw` stands for the contents of the raw file read at line 82.  The returned
event list holds the observable actions performed before the function
returned or raised; the `Except` is the outcome. -/
def apply_ica (cfg : Config) (lib : Lib) (raw : RawData) (subject : String)
    (runArg : String) (session : Option String) :
    List Event × Except String Epochs :=
  let fnameIn := fnameInOf cfg lib subject session
  match cfg.runs with
  | [] => ([Event.readEpochs fnameIn], Except.error "IndexError: list index out of range")
  | r0 :: _ =>
    let derivPath := derivPathOf cfg lib subject session
    let bidsBasenameRun := mkBasename cfg lib subject session (some r0)
    let rawFnameIn :=
      derivPath ++ "/" ++
        (if cfg.useMaxwellFilter then bidsBasenameRun ++ "_sss_raw.fif"
         else bidsBasenameRun ++ "_filt_raw.fif")
    let body := processAll cfg lib raw subject derivPath bidsBasenameRun
                  (fnameOutOf cfg lib subject session) (Epochs.loaded fnameIn) cfg.chTypes
    (Event.readEpochs fnameIn :: Event.readRaw rawFnameIn :: body.1, body.2)

/-- Modelled from the spec: `on_error` is defined in the configuration module
`config.py`, which is not among the sources; per the spec it logs the
failure.  It maps an error message to the log entries it emits. -/
def on_error (msg : String) : List String :=
  [msg]

/-- Modelled from the spec: the decorator `failsafe_run(on_error=...)` is
defined in the configuration module `config.py`, which is not among the
sources.  Per the spec, errors raised by the wrapped function are caught by
the decorator, which logs the failure and returns so that the batch
continues with the next tuple rather than aborting. -/
def failsafe_run {α β : Type} (onError : String → List String)
    (f : α → List Event × Except String β) (a : α) :
    List Event × Option β × List String :=
  match f a with
  | (tr, Except.ok b) => (tr, some b, [])
  | (tr, Except.error e) => (tr, none, onError e)

/-- Lines 233-244: the tuples `main` dispatches `apply_ica` over, in order:
`itertools.product(config.get_subjects(), config.get_runs(),
config.get_sessions())` when `config.use_ica` holds, nothing otherwise. -/
def mainDispatch (cfg : Config) : List (String × String × Option String) :=
  if cfg.useIca then
    cfg.subjects.flatMap fun s =>
      cfg.runs.flatMap fun r =>
        cfg.sessions.map fun ses => (s, r, ses)
  else []

/-- The batch run of `main`: the decorated `apply_ica` mapped over the
dispatched tuples.  `raws` gives the raw-file contents per subject and
session. -/
def mainRun (cfg : Config) (lib : Lib) (raws : String → Option String → RawData) :
    List (List Event × Option Epochs × List String) :=
  (mainDispatch cfg).map fun t =>
    failsafe_run on_error
      (fun u => apply_ica cfg lib (raws u.1 u.2.2) u.1 u.2.1 u.2.2) t

/-! ### Trace observations -/

/-- Does the event save the epoch data to disk (line 221)? -/
def isSaveEpochs : Event → Bool
  | Event.saveEpochs _ _ => true
  | _ => false

/-- Is the event an application of the exclusion (line 216)? -/
def isApplyExclude : Event → Bool
  | Event.applyExclude _ _ => true
  | _ => false

/-- Does the event write a file (cleaned epochs or the HTML report)? -/
def isWrite : Event → Bool
  | Event.saveEpochs _ _ => true
  | Event.saveReport _ => true
  | _ => false

/-- Scans a trace remembering the previous event: holds when every epoch-save
event is immediately preceded by an application of the exclusion. -/
def savesOkFrom : Option Event → List Event → Bool
  | _, [] => true
  | prev, e :: rest =>
    (!isSaveEpochs e ||
      (match prev with
       | some p => isApplyExclude p
       | none => false)) && savesOkFrom (some e) rest

/-- The last event of the list, or the supplied default when it is empty. -/
def lastEv : Option Event → List Event → Option Event
  | p, [] => p
  | _, e :: rest => lastEv (some e) rest

/-- Holds when some file write occurs strictly before the first application
of the exclusion in the trace. -/
def writeBeforeApply : List Event → Bool
  | [] => false
  | Event.applyExclude _ _ :: _ => false
  | e :: rest => isWrite e || writeBeforeApply rest

/-- Every ECG detection in the trace used the configured threshold
`config.ica_ctps_ecg_threshold`, and every EOG detection used the literal
`3.0`. -/
def thresholdsUsedOk (cfg : Config) (tr : List Event) : Bool :=
  tr.all fun e =>
    match e with
    | Event.detectEcg t => decide (t = cfg.icaCtpsEcgThreshold)
    | Event.detectEog t => decide (t = (3 : ℚ))
    | _ => true

/-- The thresholds passed to the EOG component detection, in order. -/
def eogThresholds (tr : List Event) : List ℚ :=
  tr.filterMap fun e =>
    match e with
    | Event.detectEog t => some t
    | _ => none

/-- Every file write in the trace is either an epoch save to `fnameOut` or a
report save to one of `reportNames`. -/
def writesOnly (fnameOut : String) (reportNames : List String) (tr : List Event) : Bool :=
  tr.all fun e =>
    match e with
    | Event.saveEpochs p _ => decide (p = fnameOut)
    | Event.saveReport p => decide (p ∈ reportNames)
    | _ => true

/-- The sequence of epoch-file writes in the trace: path and data written. -/
def epochsSaves (tr : List Event) : List (String × Epochs) :=
  tr.filterMap fun e =>
    match e with
    | Event.saveEpochs p d => some (p, d)
    | _ => none

/-- The epoch and raw data files read, in order. -/
def readsOf (tr : List Event) : List String :=
  tr.filterMap fun e =>
    match e with
    | Event.readEpochs p => some p
    | Event.readRaw p => some p
    | _ => none

/-- A scan of the trace through the stages of one channel-type iteration:
state 0 = before the exclusion is applied (loading, detection, diagnostic
figures, report save), state 1 = exclusion applied but epochs not yet saved,
state 2 = epochs saved (overlay figure, plot).  A `loadIca` event opens a new
iteration.  The scan holds when detection and report writes happen only
before the exclusion, the epoch save happens only after it, and the overlay
figure and plot only after the save. -/
def iterScan : Nat → List Event → Bool
  | _, [] => true
  | _, Event.loadIca _ :: rest => iterScan 0 rest
  | s, Event.detectEcg _ :: rest => decide (s = 0) && iterScan s rest
  | s, Event.detectEog _ :: rest => decide (s = 0) && iterScan s rest
  | s, Event.saveReport _ :: rest => decide (s = 0) && iterScan s rest
  | s, Event.applyExclude _ _ :: rest => decide (s = 0) && iterScan 1 rest
  | s, Event.saveEpochs _ _ :: rest => decide (s = 1) && iterScan 2 rest
  | s, Event.addFigs _ :: rest => (decide (s = 0) || decide (s = 2)) && iterScan s rest
  | s, Event.plotImage :: rest => decide (s = 2) && iterScan s rest
  | s, Event.readEpochs _ :: rest => iterScan s rest
  | s, Event.readRaw _ :: rest => iterScan s rest

/-- The scan state left after a trace. -/
def endState : Nat → List Event → Nat
  | s, [] => s
  | _, Event.loadIca _ :: rest => endState 0 rest
  | _, Event.applyExclude _ _ :: rest => endState 1 rest
  | _, Event.saveEpochs _ _ :: rest => endState 2 rest
  | s, _ :: rest => endState s rest

/-- The successive values of the epochs variable after each channel-type
iteration: iteration `i` applies its exclusion on top of the result of
iteration `i - 1`. -/
def cumEpochs (derivPath : String) :
    Epochs → List String → List (List Nat) → List Epochs
  | _, [], _ => []
  | _, _ :: _, [] => []
  | e, ct :: cts, x :: xs =>
    Epochs.icaApplied e (fnameIcaFor derivPath ct) x ::
      cumEpochs derivPath (Epochs.icaApplied e (fnameIcaFor derivPath ct) x) cts xs

/-! ### Concrete fixtures used by witnesses and counterexamples -/

/-- A concrete behaviour of the external library, with BIDS basenames of the
usual shape. -/
def lib0 : Lib where
  makeBidsBasename := fun s ses _ _ r _ _ _ =>
    "sub-" ++ s ++
      (match ses with | some x => "_ses-" ++ x | none => "") ++
      (match r with | some rr => "_run-" ++ rr | none => "")
  getSubjectDerivPath := fun s _ _ => "/deriv/sub-" ++ s
  findBadsEcg := fun _ _ _ _ => [0, 1]
  findBadsEog := fun _ _ _ => [2]

/-- A concrete baseline configuration processing the `meg` channel type. -/
def cfg0 : Config where
  chTypes := ["meg"]
  useMaxwellFilter := false
  useIca := true
  plot := false
  kind := "meg"
  task := some "aud"
  acq := none
  proc := none
  recording := none
  space := none
  subjects := ["01"]
  runs := ["01"]
  sessions := [none]
  icaCtpsEcgThreshold := 1
  rejectMag := 4
  rejectGrad := 5
  rejectEeg := 6
  rejcompsMan := fun _ _ => [7]

/-- The baseline configuration restricted to the `eeg` channel type. -/
def cfgEeg : Config :=
  { cfg0 with chTypes := ["eeg"] }

/-- A configuration differing from `cfg0` in every numeric threshold. -/
def cfgB : Config :=
  { cfg0 with icaCtpsEcgThreshold := 2, rejectMag := 7, rejectGrad := 8, rejectEeg := 9 }

/-- Raw data with one ECG channel (index 3) and one EOG channel (index 4). -/
def rawFull : RawData where
  pickMeg := [1, 2]
  pickEeg := [5, 6]
  pickEcg := [3]
  pickEog := [4]

/-- Raw data with no ECG channel and a single EOG channel at index 0, the
index numpy `any()` treats as falsy. -/
def rawEogZero : RawData where
  pickMeg := [1, 2]
  pickEeg := [5, 6]
  pickEcg := []
  pickEog := [0]

/-- Raw data with no ECG channel and an EOG channel at nonzero index 5. -/
def rawEogOnly : RawData where
  pickMeg := [1, 2]
  pickEeg := [3, 4]
  pickEcg := []
  pickEog := [5]

/-! ## Helper lemmas -/

theorem ecgPhase_shape (cfg : Config) (lib : Lib) (raw : RawData)
    (d b f ct : String) (picks : List Nat) :
    (∃ e, numpyTruthy raw.pickEcg = Except.error e ∧
      ecgPhase cfg lib raw d b f ct picks = ([], Except.error e)) ∨
    (numpyTruthy raw.pickEcg = Except.ok false ∧ ¬ ct = "meg" ∧
      ecgPhase cfg lib raw d b f ct picks = ([], Except.ok ([], none))) ∨
    ((numpyTruthy raw.pickEcg = Except.ok true ∨ ct = "meg") ∧
      ecgPhase cfg lib raw d b f ct picks =
        (ecgEvsFor cfg ct,
         Except.ok (lib.findBadsEcg f (picks ++ raw.pickEcg) (rejectFor cfg ct)
                      cfg.icaCtpsEcgThreshold,
                    some (reportFnameFor d b ct)))) := by
  cases hE : numpyTruthy raw.pickEcg with
  | error e =>
    exact Or.inl ⟨e, rfl, by simp [ecgPhase, hE]⟩
  | ok tv =>
    by_cases hct : ct = "meg"
    · exact Or.inr (Or.inr ⟨Or.inr hct, by simp [ecgPhase, hE, hct]⟩)
    · cases tv with
      | false => exact Or.inr (Or.inl ⟨rfl, hct, by simp [ecgPhase, hE, hct]⟩)
      | true => exact Or.inr (Or.inr ⟨Or.inl rfl, by simp [ecgPhase, hE, hct]⟩)

theorem eogPhase_shape (lib : Lib) (raw : RawData) (f ct : String)
    (picks : List Nat) (report : Option String) :
    (numpyAny raw.pickEog = false ∧
      eogPhase lib raw f ct picks report = ([], Except.ok [])) ∨
    (numpyAny raw.pickEog = true ∧ report = none ∧
      eogPhase lib raw f ct picks report =
        ([Event.detectEog 3],
         Except.error "AttributeError: NoneType object has no attribute add_figs_to_section")) ∨
    (∃ rf, numpyAny raw.pickEog = true ∧ report = some rf ∧
      eogPhase lib raw f ct picks report =
        (eogEvsFor ct rf, Except.ok (lib.findBadsEog f (picks ++ raw.pickEog) 3))) := by
  cases hA : numpyAny raw.pickEog with
  | false => exact Or.inl ⟨rfl, by simp [eogPhase, hA]⟩
  | true =>
    cases report with
    | none => exact Or.inr (Or.inl ⟨rfl, rfl, by simp [eogPhase, hA]⟩)
    | some rf => exact Or.inr (Or.inr ⟨rf, rfl, rfl, by simp [eogPhase, hA]⟩)

theorem savesOkFrom_append (p : Option Event) (a b : List Event) :
    savesOkFrom p (a ++ b) = (savesOkFrom p a && savesOkFrom (lastEv p a) b) := by
  induction a generalizing p with
  | nil => simp [savesOkFrom, lastEv]
  | cons e rest ih => simp [savesOkFrom, lastEv, ih, Bool.and_assoc]

theorem iterScan_append (s : Nat) (a b : List Event) :
    iterScan s (a ++ b) = (iterScan s a && iterScan (endState s a) b) := by
  induction a generalizing s with
  | nil => simp [iterScan, endState]
  | cons e rest ih => cases e <;> simp [iterScan, endState, ih, Bool.and_assoc]

theorem processChType_props (cfg : Config) (lib : Lib) (raw : RawData)
    (subject d b out : String) (ep : Epochs) (ct : String)
    (names : List String) (hn : reportFnameFor d b ct ∈ names) (p : Option Event)
    (s : Nat) :
    savesOkFrom p (processChType cfg lib raw subject d b out ep ct).1 = true ∧
    thresholdsUsedOk cfg (processChType cfg lib raw subject d b out ep ct).1 = true ∧
    writesOnly out names (processChType cfg lib raw subject d b out ep ct).1 = true ∧
    readsOf (processChType cfg lib raw subject d b out ep ct).1 = [] ∧
    iterScan s (processChType cfg lib raw subject d b out ep ct).1 = true := by
  by_cases hct : ct = "meg" ∨ ct = "eeg"
  case neg =>
    simp [processChType, hct, savesOkFrom, thresholdsUsedOk, writesOnly, readsOf, iterScan]
  case pos =>
    rcases ecgPhase_shape cfg lib raw d b (fnameIcaFor d ct) ct (picksFor raw ct) with
      ⟨e, _, hec⟩ | ⟨_, _, hec⟩ | ⟨_, hec⟩
    · simp [processChType, hct, hec, savesOkFrom, thresholdsUsedOk, writesOnly, readsOf, iterScan,
        isSaveEpochs]
    · rcases eogPhase_shape lib raw (fnameIcaFor d ct) ct (picksFor raw ct) none with
        ⟨hA, heo⟩ | ⟨hA, _, heo⟩ | ⟨rf, hA, hrep, heo⟩
      · cases hp : cfg.plot <;>
          simp [processChType, hct, hec, heo, plotTail, hp, savesOkFrom,
            thresholdsUsedOk, writesOnly, readsOf, iterScan, isSaveEpochs, isApplyExclude]
      · simp [processChType, hct, hec, heo, savesOkFrom, thresholdsUsedOk,
          writesOnly, readsOf, iterScan, isSaveEpochs]
      · exact absurd hrep (by simp)
    · rcases eogPhase_shape lib raw (fnameIcaFor d ct) ct (picksFor raw ct)
          (some (reportFnameFor d b ct)) with
        ⟨hA, heo⟩ | ⟨hA, hrep, heo⟩ | ⟨rf, hA, hrep, heo⟩
      · cases hp : cfg.plot <;>
          simp [processChType, hct, hec, heo, plotTail, hp, ecgEvsFor, savesOkFrom,
            thresholdsUsedOk, writesOnly, readsOf, iterScan, isSaveEpochs, isApplyExclude, hn]
      · exact absurd hrep (by simp)
      · have hrf : rf = reportFnameFor d b ct := by
          cases hrep
          rfl
        subst hrf
        cases hp : cfg.plot <;>
          simp [processChType, hct, hec, heo, plotTail, hp, ecgEvsFor, eogEvsFor,
            savesOkFrom, thresholdsUsedOk, writesOnly, readsOf, iterScan, isSaveEpochs, isApplyExclude, hn]

theorem processChType_ok (cfg : Config) (lib : Lib) (raw : RawData)
    (subject d b out : String) (ep : Epochs) (ct : String)
    (evs : List Event) (cl : Epochs)
    (h : processChType cfg lib raw subject d b out ep ct = (evs, Except.ok cl)) :
    ∃ ecgInds eogInds : List Nat,
      cl = Epochs.icaApplied ep (fnameIcaFor d ct)
             (ecgInds ++ eogInds ++ cfg.rejcompsMan subject ct) ∧
      epochsSaves evs = [(out, cl)] ∧
      ((numpyTruthy raw.pickEcg = Except.ok true ∨ ct = "meg") →
        ecgInds = lib.findBadsEcg (fnameIcaFor d ct) (picksFor raw ct ++ raw.pickEcg)
          (rejectFor cfg ct) cfg.icaCtpsEcgThreshold) ∧
      (numpyTruthy raw.pickEcg = Except.ok false ∧ ¬ ct = "meg" → ecgInds = []) ∧
      (numpyAny raw.pickEog = true →
        eogInds = lib.findBadsEog (fnameIcaFor d ct) (picksFor raw ct ++ raw.pickEog) 3) ∧
      (numpyAny raw.pickEog = false → eogInds = []) := by
  by_cases hct : ct = "meg" ∨ ct = "eeg"
  case neg =>
    simp [processChType, hct] at h
  case pos =>
    rcases ecgPhase_shape cfg lib raw d b (fnameIcaFor d ct) ct (picksFor raw ct) with
      ⟨e, _, hec⟩ | ⟨hE, hctm, hec⟩ | ⟨hcond, hec⟩
    · simp [processChType, hct, hec] at h
    · rcases eogPhase_shape lib raw (fnameIcaFor d ct) ct (picksFor raw ct) none with
        ⟨hA, heo⟩ | ⟨hA, _, heo⟩ | ⟨rf, hA, hrep, heo⟩
      · cases hp : cfg.plot <;>
          [skip; skip] <;>
        · simp [processChType, hct, hec, heo, plotTail, hp, Prod.mk.injEq] at h
          obtain ⟨hev, hcl⟩ := h
          subst hcl
          refine ⟨[], [], by simp, ?_, ?_, fun _ => rfl, ?_, fun hA2 => rfl⟩
          · subst hev
            simp [epochsSaves, plotTail, hp]
          · intro hc
            rcases hc with h1 | h1
            · rw [hE] at h1
              simp at h1
            · exact absurd h1 hctm
          · intro hA2
            rw [hA] at hA2
            simp at hA2
      · simp [processChType, hct, hec, heo] at h
      · exact absurd hrep (by simp)
    · rcases eogPhase_shape lib raw (fnameIcaFor d ct) ct (picksFor raw ct)
          (some (reportFnameFor d b ct)) with
        ⟨hA, heo⟩ | ⟨hA, hrep, heo⟩ | ⟨rf, hA, hrep, heo⟩
      · cases hp : cfg.plot <;>
          [skip; skip] <;>
        · simp [processChType, hct, hec, heo, plotTail, hp, Prod.mk.injEq] at h
          obtain ⟨hev, hcl⟩ := h
          subst hcl
          refine ⟨_, [], by simp, ?_, fun _ => rfl, ?_, ?_, fun _ => rfl⟩
          · subst hev
            simp [epochsSaves, ecgEvsFor, plotTail, hp]
          · rintro ⟨h1, h2⟩
            rcases hcond with h3 | h3
            · rw [h1] at h3
              simp at h3
            · exact absurd h3 h2
          · intro hA2
            rw [hA] at hA2
            simp at hA2
      · exact absurd hrep (by simp)
      · have hrf : rf = reportFnameFor d b ct := by
          cases hrep
          rfl
        subst hrf
        cases hp : cfg.plot <;>
          [skip; skip] <;>
        · simp [processChType, hct, hec, heo, plotTail, hp, Prod.mk.injEq] at h
          obtain ⟨hev, hcl⟩ := h
          subst hcl
          refine ⟨_, _, by simp, ?_, fun _ => rfl, ?_, fun _ => rfl, ?_⟩
          · subst hev
            simp [epochsSaves, ecgEvsFor, eogEvsFor, plotTail, hp]
          · rintro ⟨h1, h2⟩
            rcases hcond with h3 | h3
            · rw [h1] at h3
              simp at h3
            · exact absurd h3 h2
          · intro hA2
            rw [hA] at hA2
            simp at hA2

theorem thresholdsUsedOk_append (cfg : Config) (a b : List Event) :
    thresholdsUsedOk cfg (a ++ b) = (thresholdsUsedOk cfg a && thresholdsUsedOk cfg b) :=
  List.all_append

theorem writesOnly_append (out : String) (names : List String) (a b : List Event) :
    writesOnly out names (a ++ b) = (writesOnly out names a && writesOnly out names b) :=
  List.all_append

theorem epochsSaves_append (a b : List Event) :
    epochsSaves (a ++ b) = epochsSaves a ++ epochsSaves b :=
  List.filterMap_append a b _

theorem readsOf_append (a b : List Event) :
    readsOf (a ++ b) = readsOf a ++ readsOf b :=
  List.filterMap_append a b _

theorem processAll_props (cfg : Config) (lib : Lib) (raw : RawData)
    (subject d b out : String) (names : List String) :
    ∀ (cts : List String) (ep : Epochs) (p : Option Event) (s : Nat),
      (∀ ct ∈ cts, reportFnameFor d b ct ∈ names) →
      savesOkFrom p (processAll cfg lib raw subject d b out ep cts).1 = true ∧
      thresholdsUsedOk cfg (processAll cfg lib raw subject d b out ep cts).1 = true ∧
      writesOnly out names (processAll cfg lib raw subject d b out ep cts).1 = true ∧
      readsOf (processAll cfg lib raw subject d b out ep cts).1 = [] ∧
      iterScan s (processAll cfg lib raw subject d b out ep cts).1 = true := by
  intro cts
  induction cts with
  | nil =>
    intro ep p s _
    simp [processAll, savesOkFrom, thresholdsUsedOk, writesOnly, readsOf, iterScan]
  | cons ct rest ih =>
    intro ep p s hn
    have hhead := processChType_props cfg lib raw subject d b out ep ct names
      (hn ct (List.mem_cons_self ct rest)) p s
    cases hc : processChType cfg lib raw subject d b out ep ct with
    | mk evs res =>
      rw [hc] at hhead
      cases res with
      | error e =>
        simpa [processAll, hc] using hhead
      | ok cl =>
        have htail := ih cl (lastEv p evs) (endState s evs)
          fun x hx => hn x (List.mem_cons_of_mem ct hx)
        refine ⟨?_, ?_, ?_, ?_, ?_⟩
        · simp [processAll, hc, savesOkFrom_append, hhead.1, htail.1]
        · simp [processAll, hc, thresholdsUsedOk_append, hhead.2.1, htail.2.1]
        · simp [processAll, hc, writesOnly_append, hhead.2.2.1, htail.2.2.1]
        · simp [processAll, hc, readsOf_append, hhead.2.2.2.1, htail.2.2.2.1]
        · simp [processAll, hc, iterScan_append, hhead.2.2.2.2, htail.2.2.2.2]

theorem processAll_ok (cfg : Config) (lib : Lib) (raw : RawData)
    (subject d b out : String) :
    ∀ (cts : List String) (ep : Epochs) (tr : List Event) (efinal : Epochs),
      processAll cfg lib raw subject d b out ep cts = (tr, Except.ok efinal) →
      ∃ excls : List (List Nat),
        excls.length = cts.length ∧
        epochsSaves tr = (cumEpochs d ep cts excls).map (fun dta => (out, dta)) ∧
        (cumEpochs d ep cts excls).getLastD ep = efinal := by
  intro cts
  induction cts with
  | nil =>
    intro ep tr efinal h
    simp [processAll, Prod.mk.injEq] at h
    obtain ⟨htr, hef⟩ := h
    subst htr
    subst hef
    exact ⟨[], rfl, by simp [epochsSaves, cumEpochs], by simp [cumEpochs]⟩
  | cons ct rest ih =>
    intro ep tr efinal h
    cases hc : processChType cfg lib raw subject d b out ep ct with
    | mk evs res =>
      cases res with
      | error e =>
        rw [processAll, hc] at h
        simp at h
      | ok cl =>
        rw [processAll, hc] at h
        simp only [Prod.mk.injEq] at h
        obtain ⟨htr, hres⟩ := h
        cases hnext : processAll cfg lib raw subject d b out cl rest with
        | mk tr2 res2 =>
          rw [hnext] at htr hres
          simp only at htr hres
          obtain ⟨excls, hlen, hsaves, hlast⟩ := ih cl tr2 efinal (by rw [hnext, hres])
          obtain ⟨ecgInds, eogInds, hcl, hsave1, -, -, -, -⟩ :=
            processChType_ok cfg lib raw subject d b out ep ct evs cl hc
          refine ⟨(ecgInds ++ eogInds ++ cfg.rejcompsMan subject ct) :: excls, by simp [hlen], ?_, ?_⟩
          · subst htr
            rw [epochsSaves_append, hsave1]
            simp only [cumEpochs, List.map_cons]
            rw [← hcl, hsaves]
            simp
          · simp only [cumEpochs, List.getLastD_cons]
            rw [← hcl, hlast]

theorem data_getLast_append (a b : String) (c : Char)
    (hb : b.data.getLast? = some c) : (a ++ b).data.getLast? = some c := by
  rw [String.data_append, List.getLast?_append, hb]
  rfl

theorem ne_of_last_char (s t : String) (c e : Char)
    (hs : s.data.getLast? = some c) (ht : t.data.getLast? = some e)
    (hce : c ≠ e) : s ≠ t := by
  intro h
  rw [h, ht] at hs
  exact hce (Option.some.inj hs).symm

theorem fnameOut_ne_fnameIn (cfg : Config) (lib : Lib) (subject : String)
    (session : Option String) :
    fnameOutOf cfg lib subject session ≠ fnameInOf cfg lib subject session := by
  intro h
  have hl := congrArg String.length h
  simp only [fnameOutOf, fnameInOf, String.length_append] at hl
  have h1 : ("_cleaned-epo.fif" : String).length = 16 := rfl
  have h2 : ("-epo.fif" : String).length = 8 := rfl
  rw [h1, h2] at hl
  omega

theorem reportFname_ne_fnameIn (cfg : Config) (lib : Lib) (subject : String)
    (session : Option String) (d b ct : String) :
    reportFnameFor d b ct ≠ fnameInOf cfg lib subject session := by
  apply ne_of_last_char _ _ 'l' 'f'
  · exact data_getLast_append _ _ _ (data_getLast_append _ _ _ rfl)
  · exact data_getLast_append _ _ _ (data_getLast_append _ _ _ rfl)
  · decide

theorem apply_ica_trace_props (cfg : Config) (lib : Lib) (raw : RawData)
    (subject run : String) (session : Option String) :
    savesOkFrom none (apply_ica cfg lib raw subject run session).1 = true ∧
    thresholdsUsedOk cfg (apply_ica cfg lib raw subject run session).1 = true ∧
    writesOnly (fnameOutOf cfg lib subject session)
      (reportNamesOf cfg lib subject session)
      (apply_ica cfg lib raw subject run session).1 = true ∧
    readsOf (apply_ica cfg lib raw subject run session).1 =
      fnameInOf cfg lib subject session ::
        (rawFnameInOf cfg lib subject session).toList ∧
    iterScan 0 (apply_ica cfg lib raw subject run session).1 = true := by
  cases hr : cfg.runs with
  | nil =>
    simp [apply_ica, hr, savesOkFrom, thresholdsUsedOk, writesOnly, readsOf,
      iterScan, isSaveEpochs, rawFnameInOf]
  | cons r0 rest =>
    have hprops := processAll_props cfg lib raw subject
      (derivPathOf cfg lib subject session)
      (mkBasename cfg lib subject session (some r0))
      (fnameOutOf cfg lib subject session)
      (reportNamesOf cfg lib subject session)
      cfg.chTypes
      (Epochs.loaded (fnameInOf cfg lib subject session))
      (some (Event.readRaw
        (derivPathOf cfg lib subject session ++ "/" ++
          (if cfg.useMaxwellFilter then
            mkBasename cfg lib subject session (some r0) ++ "_sss_raw.fif"
           else
            mkBasename cfg lib subject session (some r0) ++ "_filt_raw.fif"))))
      0
      (fun ct hct => by
        simp only [reportNamesOf, hr, List.head?_cons]
        exact List.mem_map_of_mem _ hct)
    refine ⟨?_, ?_, ?_, ?_, ?_⟩
    · simp [apply_ica, hr, savesOkFrom, isSaveEpochs, hprops.1]
    · have h2 := hprops.2.1
      simp only [apply_ica, hr]
      simp [thresholdsUsedOk] at h2 ⊢
      exact h2
    · have h3 := hprops.2.2.1
      simp only [apply_ica, hr]
      simp [writesOnly] at h3 ⊢
      exact h3
    · have h4 := hprops.2.2.2.1
      simp only [apply_ica, hr]
      simp [readsOf, rawFnameInOf, hr] at h4 ⊢
      exact h4
    · have h5 := hprops.2.2.2.2
      simp only [apply_ica, hr]
      simp [iterScan] at h5 ⊢
      exact h5

/-! ## Claims -/

/-- C1: the claim says the ICA file read by `apply_ica` is named from the
subject and session BIDS basename plus a channel-type `-ica.fif` suffix
(the convention `specIcaFname`, followed by every other per-subject file of
the step).  The code disagrees: the f-string at line 96 interpolates only
`ch_type`, so the name read is the literal `bids_basename_<ch_type>-ica.fif`
for every subject and session, which differs from the convention the spec
describes, here evaluated at subject 01, no session, channel type meg. -/
theorem C1_ica_filename_literal :
    Event.loadIca "/deriv/sub-01/bids_basename_meg-ica.fif"
        ∈ (apply_ica cfg0 lib0 rawFull "01" "01" none).1 ∧
    fnameIcaFor (derivPathOf cfg0 lib0 "01" none) "meg" =
      "/deriv/sub-01/bids_basename_meg-ica.fif" ∧
    fnameIcaFor (derivPathOf cfg0 lib0 "01" none) "meg" ≠
      specIcaFname (derivPathOf cfg0 lib0 "01" none)
        (mkBasename cfg0 lib0 "01" none none) "meg" :=
  ⟨by decide, by decide, by decide⟩

/-- C2: on every channel-type iteration of `apply_ica` that completes, the
exclusion recorded in the reconstructed epochs is exactly the concatenation
of the automatically detected ECG components, the automatically detected EOG
components and the manual list `config.rejcomps_man[subject][ch_type]`; the
automatic contributions are the library detection results when the
corresponding branch runs and empty otherwise. -/
theorem C2_exclusion_concatenation (cfg : Config) (lib : Lib) (raw : RawData)
    (subject d b out : String) (ep : Epochs) (ct : String)
    (evs : List Event) (cl : Epochs)
    (h : processChType cfg lib raw subject d b out ep ct = (evs, Except.ok cl)) :
    ∃ ecgInds eogInds : List Nat,
      cl = Epochs.icaApplied ep (fnameIcaFor d ct)
             (ecgInds ++ eogInds ++ cfg.rejcompsMan subject ct) ∧
      ((numpyTruthy raw.pickEcg = Except.ok true ∨ ct = "meg") →
        ecgInds = lib.findBadsEcg (fnameIcaFor d ct) (picksFor raw ct ++ raw.pickEcg)
          (rejectFor cfg ct) cfg.icaCtpsEcgThreshold) ∧
      (numpyTruthy raw.pickEcg = Except.ok false ∧ ¬ ct = "meg" → ecgInds = []) ∧
      (numpyAny raw.pickEog = true →
        eogInds = lib.findBadsEog (fnameIcaFor d ct) (picksFor raw ct ++ raw.pickEog) 3) ∧
      (numpyAny raw.pickEog = false → eogInds = []) := by
  obtain ⟨ecgInds, eogInds, h1, _, h3, h4, h5, h6⟩ :=
    processChType_ok cfg lib raw subject d b out ep ct evs cl h
  exact ⟨ecgInds, eogInds, h1, h3, h4, h5, h6⟩

/-- C2 witness: the meg iteration at a concrete input with one ECG and one
EOG channel excludes `[0, 1] ++ [2] ++ [7]`. -/
theorem C2_witness :
    ∃ ecgInds eogInds : List Nat,
      Epochs.icaApplied (Epochs.loaded "in") (fnameIcaFor "/d" "meg") [0, 1, 2, 7] =
        Epochs.icaApplied (Epochs.loaded "in") (fnameIcaFor "/d" "meg")
          (ecgInds ++ eogInds ++ cfg0.rejcompsMan "01" "meg") ∧
      ((numpyTruthy rawFull.pickEcg = Except.ok true ∨ "meg" = "meg") →
        ecgInds = lib0.findBadsEcg (fnameIcaFor "/d" "meg")
          (picksFor rawFull "meg" ++ rawFull.pickEcg)
          (rejectFor cfg0 "meg") cfg0.icaCtpsEcgThreshold) ∧
      (numpyTruthy rawFull.pickEcg = Except.ok false ∧ ¬ "meg" = "meg" → ecgInds = []) ∧
      (numpyAny rawFull.pickEog = true →
        eogInds = lib0.findBadsEog (fnameIcaFor "/d" "meg")
          (picksFor rawFull "meg" ++ rawFull.pickEog) 3) ∧
      (numpyAny rawFull.pickEog = false → eogInds = []) :=
  C2_exclusion_concatenation cfg0 lib0 rawFull "01" "/d" "bn" "/d/out.fif"
    (Epochs.loaded "in") "meg" _ _ rfl

/-- C3 as stated is false on the code: with an EOG channel at picker index 0
(`pick_eog = [0]`, so `pick_eog.any()` is falsy), no ECG channel and channel
type eeg, the undecorated `apply_ica` raises nothing and saves cleaned
epochs. -/
theorem C3_counterexample :
    rawEogZero.pickEog ≠ [] ∧ rawEogZero.pickEcg = [] ∧ cfgEeg.chTypes = ["eeg"] ∧
    (apply_ica cfgEeg lib0 rawEogZero "01" "01" none).2.isOk = true ∧
    epochsSaves (apply_ica cfgEeg lib0 rawEogZero "01" "01" none).1 ≠ [] :=
  ⟨by decide, by decide, by decide, by decide, by decide⟩

/-- C3 amended: when the raw data has no ECG channel, has an EOG channel that
`pick_eog.any()` registers (a nonzero picker index), and eeg is the first
channel type processed, the undecorated `apply_ica` raises in the EOG branch
(the report object is still `None` when the diagnostic figures are added)
and no cleaned epochs are written. -/
theorem C3_eeg_eog_exception (cfg : Config) (lib : Lib) (raw : RawData)
    (subject run : String) (session : Option String)
    (hecg : raw.pickEcg = []) (heog : numpyAny raw.pickEog = true)
    (hhead : cfg.chTypes.head? = some "eeg") :
    (∃ e, (apply_ica cfg lib raw subject run session).2 = Except.error e) ∧
    epochsSaves (apply_ica cfg lib raw subject run session).1 = [] := by
  have hpc : ∀ (d b out : String) (ep : Epochs),
      processChType cfg lib raw subject d b out ep "eeg" =
        ([Event.loadIca (fnameIcaFor d "eeg"), Event.detectEog 3],
         Except.error "AttributeError: NoneType object has no attribute add_figs_to_section") := by
    intro d b out ep
    simp [processChType, ecgPhase, eogPhase, hecg, heog, numpyTruthy]
  cases hr : cfg.runs with
  | nil =>
    exact ⟨⟨"IndexError: list index out of range", by simp [apply_ica, hr]⟩,
      by simp [apply_ica, hr, epochsSaves]⟩
  | cons r0 rest =>
    cases hct : cfg.chTypes with
    | nil =>
      rw [hct] at hhead
      simp at hhead
    | cons c0 crest =>
      rw [hct] at hhead
      simp at hhead
      subst hhead
      refine ⟨⟨"AttributeError: NoneType object has no attribute add_figs_to_section", ?_⟩, ?_⟩
      · simp [apply_ica, hr, hct, processAll, hpc]
      · simp [apply_ica, hr, hct, processAll, hpc, epochsSaves]

/-- C3 witness: the amended statement at a concrete input, EOG channel at
index 5, no ECG channel, channel types `[eeg]`. -/
theorem C3_witness :
    (∃ e, (apply_ica cfgEeg lib0 rawEogOnly "01" "01" none).2 = Except.error e) ∧
    epochsSaves (apply_ica cfgEeg lib0 rawEogOnly "01" "01" none).1 = [] :=
  C3_eeg_eog_exception cfgEeg lib0 rawEogOnly "01" "01" none rfl rfl rfl

/-- C4 as stated is false on the code: the EOG component-detection threshold
is the literal `3.0` of line 181, not a configuration value; two
configurations differing in every numeric threshold both use `3`. -/
theorem C4_counterexample :
    cfg0.icaCtpsEcgThreshold ≠ cfgB.icaCtpsEcgThreshold ∧
    cfg0.rejectMag ≠ cfgB.rejectMag ∧
    cfg0.rejectGrad ≠ cfgB.rejectGrad ∧
    cfg0.rejectEeg ≠ cfgB.rejectEeg ∧
    eogThresholds (apply_ica cfg0 lib0 rawFull "01" "01" none).1 = [3] ∧
    eogThresholds (apply_ica cfgB lib0 rawFull "01" "01" none).1 = [3] :=
  ⟨by decide, by decide, by decide, by decide, by decide, by decide⟩

/-- C4 amended: in every run of `apply_ica`, every ECG detection uses the
configured `config.ica_ctps_ecg_threshold`, and every EOG detection uses the
script constant `3.0`. -/
theorem C4_thresholds (cfg : Config) (lib : Lib) (raw : RawData)
    (subject run : String) (session : Option String) :
    thresholdsUsedOk cfg (apply_ica cfg lib raw subject run session).1 = true :=
  (apply_ica_trace_props cfg lib raw subject run session).2.1

/-- C5: the `failsafe_run` decorator (modelled from the spec, as it lives in
the configuration module) intercepts every error of the wrapped function,
returning the log produced by `on_error` instead of propagating, and passes
successful results through; consequently the batch `mainRun` has one entry
for every dispatched tuple no matter which tuples fail. -/
theorem C5_failsafe_continues :
    (∀ {α β : Type} (f : α → List Event × Except String β) (a : α)
        (tr : List Event) (e : String),
      f a = (tr, Except.error e) →
      failsafe_run on_error f a = (tr, none, on_error e)) ∧
    (∀ {α β : Type} (f : α → List Event × Except String β) (a : α)
        (tr : List Event) (b2 : β),
      f a = (tr, Except.ok b2) →
      failsafe_run on_error f a = (tr, some b2, [])) ∧
    (∀ (cfg : Config) (lib : Lib) (raws : String → Option String → RawData),
      (mainRun cfg lib raws).length = (mainDispatch cfg).length) :=
  ⟨fun f a tr e h => by simp [failsafe_run, h],
   fun f a tr b2 h => by simp [failsafe_run, h],
   fun cfg lib raws => by simp [mainRun]⟩

theorem count_triple_map (s r : String) (sess : List (Option String))
    (t : String × String × Option String) :
    ((sess.map fun e => (s, r, e)).count t) =
      if t.1 = s ∧ t.2.1 = r then sess.count t.2.2 else 0 := by
  obtain ⟨t1, t2, t3⟩ := t
  induction sess with
  | nil => simp
  | cons a rest ih =>
    simp only [List.map_cons, List.count_cons, ih, beq_iff_eq, Prod.mk.injEq]
    by_cases h1 : t1 = s
    · subst h1
      by_cases h2 : t2 = r
      · subst h2
        by_cases h3 : t3 = a
        · subst h3
          simp
        · simp [h3, Ne.symm h3]
      · simp [h2, Ne.symm h2]
    · simp [h1, Ne.symm h1]

theorem count_triple_runs (s : String) (runs : List String)
    (sess : List (Option String)) (t : String × String × Option String) :
    ((runs.flatMap fun r => sess.map fun e => (s, r, e)).count t) =
      if t.1 = s then runs.count t.2.1 * sess.count t.2.2 else 0 := by
  obtain ⟨t1, t2, t3⟩ := t
  induction runs with
  | nil => simp
  | cons a rest ih =>
    simp only [List.flatMap_cons, List.count_append, ih, count_triple_map,
      List.count_cons, beq_iff_eq]
    by_cases h1 : t1 = s
    · by_cases h2 : t2 = a
      · subst h2
        simp [h1]
        ring
      · simp [h1, h2, Ne.symm h2]
    · simp [h1]

theorem count_triple_product (subs runs : List String)
    (sess : List (Option String)) (t : String × String × Option String) :
    ((subs.flatMap fun s => runs.flatMap fun r => sess.map fun e => (s, r, e)).count t) =
      subs.count t.1 * runs.count t.2.1 * sess.count t.2.2 := by
  obtain ⟨t1, t2, t3⟩ := t
  induction subs with
  | nil => simp
  | cons a rest ih =>
    simp only [List.flatMap_cons, List.count_append, ih, count_triple_runs,
      List.count_cons, beq_iff_eq]
    by_cases h1 : t1 = a
    · subst h1
      simp
      ring
    · simp [h1, Ne.symm h1]

/-- C6: when `config.use_ica` holds, `main` dispatches one `apply_ica` call
per tuple of the product of subjects, runs and sessions (counted with
multiplicity); when it does not hold, nothing is dispatched; and the batch
result is a pointwise map of the decorated single-tuple function over the
dispatched tuples, so no call depends on any state shared with another. -/
theorem C6_dispatch_product (cfg : Config) (lib : Lib)
    (raws : String → Option String → RawData) (t : String × String × Option String) :
    (cfg.useIca = true →
      (mainDispatch cfg).count t =
        cfg.subjects.count t.1 * cfg.runs.count t.2.1 * cfg.sessions.count t.2.2) ∧
    (cfg.useIca = false → mainDispatch cfg = []) ∧
    mainRun cfg lib raws =
      (mainDispatch cfg).map fun u =>
        failsafe_run on_error
          (fun v => apply_ica cfg lib (raws v.1 v.2.2) v.1 v.2.1 v.2.2) u :=
  ⟨fun h => by simp [mainDispatch, h, count_triple_product],
   fun h => by simp [mainDispatch, h],
   rfl⟩

/-- C7: every file `apply_ica` writes is the cleaned-epoch file
`..._cleaned-epo.fif` or one of the per-channel-type HTML report files, and
neither of those paths ever equals the input epoch path `...-epo.fif`: the
input epoch file is not overwritten. -/
theorem C7_outputs_only (cfg : Config) (lib : Lib) (raw : RawData)
    (subject run : String) (session : Option String) :
    writesOnly (fnameOutOf cfg lib subject session)
        (reportNamesOf cfg lib subject session)
        (apply_ica cfg lib raw subject run session).1 = true ∧
    fnameOutOf cfg lib subject session ≠ fnameInOf cfg lib subject session ∧
    ∀ p ∈ reportNamesOf cfg lib subject session,
      p ≠ fnameInOf cfg lib subject session := by
  refine ⟨(apply_ica_trace_props cfg lib raw subject run session).2.2.1,
    fnameOut_ne_fnameIn cfg lib subject session, ?_⟩
  intro p hp
  cases hr0 : cfg.runs.head? with
  | none => simp [reportNamesOf, hr0] at hp
  | some r0 =>
    simp only [reportNamesOf, hr0, List.mem_map] at hp
    obtain ⟨ct, -, rfl⟩ := hp
    exact reportFname_ne_fnameIn cfg lib subject session _ _ _

/-- C8: the behaviour of `apply_ica` does not depend on its `run` argument:
any two run values give identical traces and results, and the epoch and raw
files read are the run-less epoch file and the raw file of the first
configured run. -/
theorem C8_run_argument_immaterial (cfg : Config) (lib : Lib) (raw : RawData)
    (subject r1 r2 : String) (session : Option String) :
    apply_ica cfg lib raw subject r1 session =
      apply_ica cfg lib raw subject r2 session ∧
    readsOf (apply_ica cfg lib raw subject r1 session).1 =
      fnameInOf cfg lib subject session ::
        (rawFnameInOf cfg lib subject session).toList :=
  ⟨rfl, (apply_ica_trace_props cfg lib raw subject r1 session).2.2.2.1⟩

/-- C9: in every completing run of `apply_ica`, the channel-type iterations
are cumulative over one epochs object: each iteration applies its exclusion
on top of the previous result, every iteration writes the running value to
the same output path, and the last write is the value reflecting all channel
types in configuration order, which is also the returned result. -/
theorem C9_cumulative_saves (cfg : Config) (lib : Lib) (raw : RawData)
    (subject run : String) (session : Option String)
    (tr : List Event) (efinal : Epochs)
    (h : apply_ica cfg lib raw subject run session = (tr, Except.ok efinal)) :
    ∃ excls : List (List Nat),
      excls.length = cfg.chTypes.length ∧
      epochsSaves tr =
        (cumEpochs (derivPathOf cfg lib subject session)
            (Epochs.loaded (fnameInOf cfg lib subject session)) cfg.chTypes excls).map
          (fun dta => (fnameOutOf cfg lib subject session, dta)) ∧
      (cumEpochs (derivPathOf cfg lib subject session)
          (Epochs.loaded (fnameInOf cfg lib subject session)) cfg.chTypes excls).getLastD
        (Epochs.loaded (fnameInOf cfg lib subject session)) = efinal := by
  cases hr : cfg.runs with
  | nil => simp [apply_ica, hr] at h
  | cons r0 rest =>
    cases hb : processAll cfg lib raw subject (derivPathOf cfg lib subject session)
        (mkBasename cfg lib subject session (some r0))
        (fnameOutOf cfg lib subject session)
        (Epochs.loaded (fnameInOf cfg lib subject session)) cfg.chTypes with
    | mk tr2 res2 =>
      rw [apply_ica] at h
      simp only [hr, hb, Prod.mk.injEq] at h
      obtain ⟨htr, hres⟩ := h
      obtain ⟨excls, hlen, hsaves, hlast⟩ :=
        processAll_ok cfg lib raw subject _ _ _ cfg.chTypes _ tr2 efinal
          (by rw [hb, hres])
      refine ⟨excls, hlen, ?_, hlast⟩
      rw [← htr]
      simpa [epochsSaves] using hsaves

/-- C9 witness: the statement at a concrete single-channel-type input. -/
theorem C9_witness :
    ∃ excls : List (List Nat),
      excls.length = cfg0.chTypes.length ∧
      epochsSaves (apply_ica cfg0 lib0 rawFull "01" "01" none).1 =
        (cumEpochs (derivPathOf cfg0 lib0 "01" none)
            (Epochs.loaded (fnameInOf cfg0 lib0 "01" none)) cfg0.chTypes excls).map
          (fun dta => (fnameOutOf cfg0 lib0 "01" none, dta)) ∧
      (cumEpochs (derivPathOf cfg0 lib0 "01" none)
          (Epochs.loaded (fnameInOf cfg0 lib0 "01" none)) cfg0.chTypes excls).getLastD
        (Epochs.loaded (fnameInOf cfg0 lib0 "01" none)) =
        Epochs.icaApplied (Epochs.loaded "/deriv/sub-01/sub-01-epo.fif")
          "/deriv/sub-01/bids_basename_meg-ica.fif" [0, 1, 2, 7] :=
  C9_cumulative_saves cfg0 lib0 rawFull "01" "01" none _ _ rfl

/-- C10 as stated is false on the code: with an EOG channel in use, the HTML
report file is saved (line 201) before the exclusion is applied (line 216),
so an output file is written before the exclusion has been applied. -/
theorem C10_counterexample :
    writeBeforeApply (apply_ica cfgEeg lib0 rawFull "01" "01" none).1 = true ∧
    Event.saveReport "/deriv/sub-01/sub-01_run-01_eeg-reject_ica.html"
        ∈ (apply_ica cfgEeg lib0 rawFull "01" "01" none).1 :=
  ⟨by decide, by decide⟩

/-- C10 amended: within each channel-type iteration the steps occur in the
order load ICA, detect components (with their diagnostic figures and, when
an EOG channel is used, the report save), apply the exclusion, save the
cleaned epochs, and only then the overlay figure and plot; the cleaned-epoch
file is never written before the exclusion has been applied (every epoch
save is immediately preceded by the exclusion application), though the HTML
report may be written during detection. -/
theorem C10_iteration_order (cfg : Config) (lib : Lib) (raw : RawData)
    (subject run : String) (session : Option String) :
    savesOkFrom none (apply_ica cfg lib raw subject run session).1 = true ∧
    iterScan 0 (apply_ica cfg lib raw subject run session).1 = true :=
  ⟨(apply_ica_trace_props cfg lib raw subject run session).1,
   (apply_ica_trace_props cfg lib raw subject run session).2.2.2.2⟩

end ApplyIca
